import Mathlib

/-!
Verification of the parser-microservice document-processing pipeline.

The development shallowly embeds the JavaScript source:

* `src/services/parser.js` — the document analyzer (`AIParserV3`):
  effect-layer classification, mask rendering outcomes, bounding-box
  extraction from PNG alpha data, fallback filename classification and
  the confidence formula.
* `src/worker.js` — the Bull worker processor: the sequence of progress
  updates and result persistence events of one job attempt, and queue
  initialization at cold start.
* `src/server.js` — the result endpoint and queue initialization.

External IO (pdftocairo renders, PNG decoding, Redis) is abstracted as
explicit parameters: a render outcome per layer index, an `Except` value
for a PNG read, a success flag per fallback mask.  Floating-point numbers
of the source are embedded as rationals.
-/

/-- The JS expression `x || d` on numbers: `d` when `x` is falsy (zero). -/
def jsOr (x d : ℚ) : ℚ := if x = 0 then d else x

/-- The JS expression `x || d` on strings: `d` when `x` is the empty string. -/
def jsOrStr (x d : String) : String := if x = "" then d else x

/-- `p` is a leading segment of `l` (character-list version of startsWith). -/
def listHasPre (p l : List Char) : Bool :=
  match p, l with
  | [], _ => true
  | _ :: _, [] => false
  | a :: ps, b :: ls => a = b && listHasPre ps ls

/-- `p` occurs contiguously somewhere inside `l`. -/
def listHasSeg (p l : List Char) : Bool :=
  match l with
  | [] => p.isEmpty
  | _ :: ls => listHasPre p l || listHasSeg p ls

/-- JS `s.includes(sub)`: substring containment. -/
def strIncludes (s sub : String) : Bool := listHasSeg sub.toList s.toList

/-- JS `s.toLowerCase()` (ASCII, which covers every string the code matches). -/
def strToLower (s : String) : String := String.mk (s.toList.map Char.toLower)

/-- Drop leading and trailing whitespace from a character list. -/
def listTrim (l : List Char) : List Char :=
  ((l.dropWhile Char.isWhitespace).reverse.dropWhile Char.isWhitespace).reverse

/-- JS `s.trim()`. -/
def strTrim (s : String) : String := String.mk (listTrim s.toList)

/-- JS `layerName.replace(/[^a-zA-Z0-9_-]/g, "_")` from `renderLayerMask`. -/
def sanitizeName (s : String) : String :=
  String.mk (s.toList.map fun c =>
    if c.isAlphanum || c = '_' || c = '-' then c else '_')

/-- Bounding box in millimeters, `{x, y, width, height}` (parser.js). -/
structure Bounds where
  x : ℚ
  y : ℚ
  width : ℚ
  height : ℚ
deriving DecidableEq

/-- A decoded PNG as the analyzer reads it: dimensions and the alpha value
at pixel (x, y) — parser.js reads `png.data[(width*y+x)*4+3]`. -/
structure PngImage where
  width : ℕ
  height : ℕ
  alpha : ℕ → ℕ → ℕ

/-- An effect layer record as pushed by `extractOCGLayers` and
`fallbackLayerExtraction` (parser.js). -/
structure Layer where
  id : String
  name : String
  type : String
  effectType : String
  effectSubtype : String
  side : String
  maskFile : String
  bounds : Bounds
  confidence : ℚ
deriving DecidableEq

/-- Classification result of `detectEffectLayer` (parser.js line 621). -/
structure EffectInfo where
  type : String
  subtype : String
  side : String
deriving DecidableEq

/-- Candidate effect from `analyzeFilenameForEffects` (parser.js line 461). -/
structure FilenameEffect where
  type : String
  keyword : String
  subtype : String
deriving DecidableEq

/-- The per-layer-name keyword table of `detectEffectLayer`
(parser.js lines 625-661): effect type, keywords, subtype keyword lists,
in source iteration order. -/
def detectPatterns : List (String × List String × List (String × List String)) :=
  [("foil", (["foil", "hot", "metallic", "gold", "silver", "copper", "rose", "holo"],
    [("gold", ["gold", "golden", "yellow"]),
     ("silver", ["silver", "chrome", "metallic", "white"]),
     ("copper", ["copper", "bronze", "brown"]),
     ("rose_gold", ["rose", "pink", "rosegold"]),
     ("holographic", ["holo", "rainbow", "prismatic"])])),
   ("spotUV", (["uv", "spot", "gloss", "varnish", "coating", "clear"],
    [("gloss", ["gloss", "uv", "coating", "varnish"])])),
   ("emboss", (["emboss", "raised", "deboss", "recessed", "relief", "pressed"],
    [("raised", ["emboss", "raised", "relief"]),
     ("recessed", ["deboss", "recessed", "pressed"])])),
   ("diecut", (["die", "cut", "cutting", "outline", "trim"],
    [("through", ["die", "cut", "cutting"])])),
   ("edge", (["edge", "paint", "ink"],
    [("painted", ["paint", "ink", "color"])]))]

/-- `detectEffectLayer(layerName)` (parser.js lines 621-682): lowercase and
trim the name, pick the first effect type one of whose keywords occurs in
the name, then the first matching subtype (else "default"), and the side
from back/rear tokens. -/
def detectEffectLayer (layerName : String) : Option EffectInfo :=
  let name := strTrim (strToLower layerName)
  (detectPatterns.find? fun pat =>
      pat.2.1.any fun k => strIncludes name k).map fun pat =>
    let subtype :=
      ((pat.2.2.find? fun sk => sk.2.any fun k => strIncludes name k).map
        Prod.fst).getD "default"
    let side :=
      if strIncludes name "back" || strIncludes name "rear" then "back"
      else "front"
    ⟨pat.1, subtype, side⟩

/-- The filename keyword table of `analyzeFilenameForEffects`
(parser.js lines 463-468), in source iteration order. -/
def effectPatterns : List (String × List String) :=
  [("foil", ["foil", "gold", "silver", "metallic", "hot"]),
   ("spotUV", ["uv", "gloss", "varnish", "coating"]),
   ("emboss", ["emboss", "raised", "deboss"]),
   ("diecut", ["die", "cut", "cutting"])]

/-- The subtype lookup table of `extractSubtypeFromKeyword`
(parser.js lines 488-497). -/
def subtypeTable : List (String × String) :=
  [("gold", "gold"), ("silver", "silver"), ("copper", "copper"),
   ("rose", "rose_gold"), ("uv", "gloss"), ("gloss", "gloss"),
   ("emboss", "raised"), ("deboss", "recessed")]

/-- `extractSubtypeFromKeyword(keyword, filename)` (parser.js lines 487-500):
looks the matched keyword up in the subtype table; the filename argument is
unused by the source. -/
def extractSubtypeFromKeyword (keyword : String) (_filename : String) : String :=
  (subtypeTable.lookup keyword).getD "default"

/-- `analyzeFilenameForEffects(filename)` (parser.js lines 461-485): for each
effect type, the first keyword contained in the filename contributes one
candidate effect (at most one per effect type). -/
def analyzeFilenameForEffects (filename : String) : List FilenameEffect :=
  effectPatterns.foldl
    (fun acc pat =>
      match pat.2.find? (fun k => strIncludes filename (strToLower k)) with
      | some k => acc ++ [⟨pat.1, k, extractSubtypeFromKeyword k filename⟩]
      | none => acc)
    []

/-- `generateDefaultBounds(index)` (parser.js lines 530-541): fixed nominal
bounding boxes for fallback layers. -/
def generateDefaultBounds (index : ℕ) : Bounds :=
  ⟨15 + index * 5, 35, 25, 8⟩

/-- The layer record pushed for the candidate effect at index `i` in
`fallbackLayerExtraction` (parser.js lines 441-451): synthetic mask file
name, fixed nominal bounds, confidence 0.5. -/
def fallbackLayerOf (i : ℕ) (e : FilenameEffect) : Layer :=
  ⟨"fallback_" ++ toString i, e.keyword, "effect", e.type, e.subtype, "front",
   "fallback_" ++ e.type ++ "_" ++ toString i ++ ".png",
   generateDefaultBounds i, 0.5⟩

/-- The indexed for-loop of `fallbackLayerExtraction` (parser.js lines
433-456): a candidate whose mask generation fails is skipped. -/
def fallbackLayersFrom (maskOk : ℕ → Bool) : ℕ → List FilenameEffect → List Layer
  | _, [] => []
  | i, e :: rest =>
    if maskOk i then fallbackLayerOf i e :: fallbackLayersFrom maskOk (i + 1) rest
    else fallbackLayersFrom maskOk (i + 1) rest

/-- `fallbackLayerExtraction(filePath, assetsDir)` (parser.js lines 424-459).
`filename` is the base name of the source file; `maskOk i` abstracts whether
`generateFallbackMask` succeeded for the i-th candidate effect. -/
def fallbackLayerExtraction (maskOk : ℕ → Bool) (filename : String) : List Layer :=
  fallbackLayersFrom maskOk 0 (analyzeFilenameForEffects (strToLower filename))

/-- Accumulator of the pixel scan in `extractBoundsFromMask`
(parser.js lines 379-398). -/
structure BoundsAcc where
  hasContent : Bool
  minX : ℕ
  minY : ℕ
  maxX : ℕ
  maxY : ℕ
deriving DecidableEq

/-- One iteration of the scan loop: a pixel with alpha above the fixed
cutoff 50 extends the bounding box. -/
def scanPixel (png : PngImage) (acc : BoundsAcc) (p : ℕ × ℕ) : BoundsAcc :=
  if 50 < png.alpha p.1 p.2 then
    ⟨true, min acc.minX p.1, min acc.minY p.2, max acc.maxX p.1, max acc.maxY p.2⟩
  else acc

/-- All pixel coordinates in the scan order of the nested loops
(y outer, x inner). -/
def pixelCoords (png : PngImage) : List (ℕ × ℕ) :=
  (List.range png.height).flatMap fun y =>
    (List.range png.width).map fun x => (x, y)

/-- JS `Math.round(q * 100) / 100` as used for the millimeter values. -/
def round2 (q : ℚ) : ℚ := (round (q * 100) : ℤ) / 100

/-- The pure core of `extractBoundsFromMask(maskPath)` (parser.js lines
374-422) on an already-decoded PNG: scan all pixels, and either return the
zero box (no pixel above the alpha cutoff) or the pixel bounds converted to
millimeters at the configured dpi. -/
def extractBoundsFromMask (dpi : ℚ) (png : PngImage) : Bounds :=
  let acc := (pixelCoords png).foldl (scanPixel png) ⟨false, png.width, png.height, 0, 0⟩
  if acc.hasContent = false then ⟨0, 0, 0, 0⟩
  else
    let pxToMm : ℚ := 25.4 / dpi
    ⟨round2 (acc.minX * pxToMm), round2 (acc.minY * pxToMm),
     round2 (((acc.maxX : ℚ) - (acc.minX : ℚ)) * pxToMm),
     round2 (((acc.maxY : ℚ) - (acc.minY : ℚ)) * pxToMm)⟩

/-- `extractBoundsFromMask` including its surrounding try/catch: a failed
read or decode of the mask file (parser.js lines 418-421) yields the zero
box. -/
def extractBoundsFromMaskResult (dpi : ℚ) (r : Except String PngImage) : Bounds :=
  match r with
  | .error _ => ⟨0, 0, 0, 0⟩
  | .ok png => extractBoundsFromMask dpi png

/-- Outcome of `renderLayerMask` for one layer (parser.js lines 249-276):
the primary isolated-OCG render succeeded, the full-page-render substitute
succeeded, or both failed. -/
inductive RenderOutcome
  | advanced
  | fullPage
  | failed
deriving DecidableEq

/-- The confidence `renderLayerMask` attaches to a usable mask: 0.95 for the
advanced method, 0.7 for the full-page substitute, none on failure. -/
def renderConfidence : RenderOutcome → Option ℚ
  | .advanced => some 0.95
  | .fullPage => some 0.7
  | .failed => none

/-- The body of the per-layer loop of `extractOCGLayers` (parser.js lines
167-201) for the layer name at index `i`: classify the name; on a usable
mask build the layer record with bounds from the rendered mask file and
confidence `maskResult.confidence || 0.8`.  `render i` abstracts the
external render outcome and `maskRead i` the read-back of the mask file. -/
def ocgLayerFromName (dpi : ℚ) (render : ℕ → RenderOutcome)
    (maskRead : ℕ → Except String PngImage) (i : ℕ) (layerName : String) :
    Option Layer :=
  match detectEffectLayer layerName with
  | none => none
  | some info =>
    match renderConfidence (render i) with
    | none => none
    | some conf =>
      some ⟨"layer_" ++ toString i, layerName, "effect", info.type,
            info.subtype, jsOrStr info.side "front",
            sanitizeName layerName ++ "_" ++ toString i ++ ".png",
            extractBoundsFromMaskResult dpi (maskRead i),
            jsOr conf 0.8⟩

/-- The indexed for-loop of `extractOCGLayers` over the declared layer
names (parser.js lines 167-201): names that classify as no effect or whose
mask rendering yields nothing are skipped. -/
def ocgLayersFrom (dpi : ℚ) (render : ℕ → RenderOutcome)
    (maskRead : ℕ → Except String PngImage) : ℕ → List String → List Layer
  | _, [] => []
  | i, name :: rest =>
    match ocgLayerFromName dpi render maskRead i name with
    | some l => l :: ocgLayersFrom dpi render maskRead (i + 1) rest
    | none => ocgLayersFrom dpi render maskRead (i + 1) rest

/-- `extractOCGLayers(pdfDoc, filePath, assetsDir, jobId)` (parser.js lines
146-210).  `ocgAvailable` abstracts the OCProperties lookup: false when the
lookup result is falsy or the surrounding try block throws, both of which
fall back; when OCG is available and enabled the declared layer names are
processed one by one, and names that classify as no effect or whose mask
rendering fails are skipped. -/
def extractOCGLayers (ocgAvailable enableOCG : Bool) (layerNames : List String)
    (render : ℕ → RenderOutcome) (maskRead : ℕ → Except String PngImage)
    (maskOk : ℕ → Bool) (filename : String) (dpi : ℚ) : List Layer :=
  if ocgAvailable = false || enableOCG = false then
    fallbackLayerExtraction maskOk filename
  else
    ocgLayersFrom dpi render maskRead 0 layerNames

/-- `calculateConfidence(layerCount, mapCount)` (parser.js lines 684-700). -/
def calculateConfidence (layerCount mapCount : ℕ) : ℚ :=
  let base : ℚ := 0.3
  let c1 := if 0 < layerCount then base + min 0.4 ((layerCount : ℚ) * 0.1) else base
  let c2 := if 0 < mapCount then c1 + min 0.3 ((mapCount : ℚ) * 0.05) else c1
  min 0.98 c2

/-- Observable events of one job attempt in the worker processor
(`parseQueue.process` in src/worker.js lines 116-264): progress updates,
persistence of result.json, and the terminal acknowledgement. -/
inductive WorkerEvent
  | progress (pct : ℕ)
  | writeResultJson
  | ackCompleted
  | failJob
deriving DecidableEq

/-- The stage table of the `updateProgress` closure
(src/worker.js lines 150-163). -/
def progressTable : List (String × ℕ) :=
  [("loading", 25), ("ocg_extraction", 35), ("layer_detection", 50),
   ("texture_generation", 70), ("material_mapping", 85), ("finalizing", 95)]

/-- `updateProgress(stage, baseProgress)`: the mapped percentage, or the
base progress for an unknown stage. -/
def updateProgressValue (stage : String) (baseProgress : ℕ) : ℕ :=
  (progressTable.lookup stage).getD baseProgress

/-- How far one job attempt gets before terminating. -/
inductive AttemptPath
  | fileMissing
  | parseFailed
  | success
deriving DecidableEq

/-- Event trace of one attempt of the worker processor (src/worker.js lines
116-264 with `parseWithProgressTracking`, lines 266-278).  On success the
parser itself persists result.json (parser.js line 98) between the loading
and finalizing checkpoints, then the worker reports 90, 95, 98, writes
result.json again, reports 100 and returns (Bull then marks the job
completed).  Failures throw, which Bull records as a failed attempt. -/
def workerProcessEvents : AttemptPath → List WorkerEvent
  | .fileMissing => [.progress 5, .failJob]
  | .parseFailed =>
      [.progress 5, .progress 10, .progress 20,
       .progress (updateProgressValue "loading" 20), .failJob]
  | .success =>
      [.progress 5, .progress 10, .progress 20,
       .progress (updateProgressValue "loading" 20),
       .writeResultJson,
       .progress (updateProgressValue "finalizing" 20),
       .progress 90, .progress 95, .progress 98,
       .writeResultJson, .progress 100, .ackCompleted]

/-- The progress percentages an external reader observes during one
attempt, in order. -/
def progressTrace (p : AttemptPath) : List ℕ :=
  (workerProcessEvents p).filterMap fun e =>
    match e with
    | .progress n => some n
    | _ => none

/-- Boolean check that a list of percentages is non-decreasing. -/
def nonDecreasingB : List ℕ → Bool
  | [] => true
  | [_] => true
  | a :: b :: rest => a ≤ b && nonDecreasingB (b :: rest)

/-- Pause state of the queue as persisted in Redis and observed by a Bull
process: the in-memory paused gate plus the two persisted pause keys the
server deletes (src/server.js lines 98-100). -/
structure QueueControlState where
  localPaused : Bool
  pausedKey : Bool
  metaPausedKey : Bool
deriving DecidableEq

/-- Modelled from the spec: the queue resume operation of the external Bull
library, absent from src.  Spec section 4.1: resume toggles QueueControl to
not paused and must also clear any persisted pause flag. -/
def bullResume (_s : QueueControlState) : QueueControlState :=
  ⟨false, false, false⟩

/-- Modelled from the spec: a cold start of a Bull process, absent from
src.  The fresh process derives its paused gate from the persisted pause
keys alone (a persisted pause would otherwise survive the restart). -/
def coldStart (s : QueueControlState) : QueueControlState :=
  ⟨s.pausedKey || s.metaPausedKey, s.pausedKey, s.metaPausedKey⟩

/-- `redis.del("bull:parse_jobs:paused")` (src/server.js line 99). -/
def redisDelPausedKey (s : QueueControlState) : QueueControlState :=
  ⟨s.localPaused, false, s.metaPausedKey⟩

/-- `redis.del("bull:parse_jobs:meta-paused")` (src/server.js line 100). -/
def redisDelMetaPausedKey (s : QueueControlState) : QueueControlState :=
  ⟨s.localPaused, s.pausedKey, false⟩

/-- `initializeQueue` of the worker (src/worker.js lines 71-113): resume the
queue; the subsequent clean and status calls do not touch the pause state. -/
def workerInitializeQueue (s : QueueControlState) : QueueControlState :=
  bullResume s

/-- `initializeQueue` of the API server (src/server.js lines 90-113): resume
the queue, then delete both persisted pause keys. -/
def serverInitializeQueue (s : QueueControlState) : QueueControlState :=
  redisDelMetaPausedKey (redisDelPausedKey (bullResume s))

/-- Queue broker state for the lease model: waiting job ids in FIFO order,
ids currently under an active lease, and the paused gate. -/
structure BrokerState where
  waiting : List String
  active : List String
  paused : Bool

/-- Modelled from the spec: `lease(workerToken)` of the queue broker, whose
implementation is the external Bull library, absent from src.  Spec section
4.1: atomically moves the oldest eligible waiting job to active; returns
none if no eligible job or the queue is paused. -/
def lease (s : BrokerState) : Option String × BrokerState :=
  if s.paused then (none, s)
  else
    match s.waiting with
    | [] => (none, s)
    | j :: rest => (some j, ⟨rest, j :: s.active, s.paused⟩)

/-- `n` atomic lease calls in sequence.  The spec makes each lease atomic
with respect to concurrent workers, so any concurrent schedule of lease
calls by worker slots is some such sequence; the first component collects
the returned job ids in call order. -/
def leaseRun : ℕ → BrokerState → List String × BrokerState
  | 0, s => ([], s)
  | Nat.succ n, s =>
    match lease s with
    | (none, s1) => leaseRun n s1
    | (some j, s1) =>
      let r := leaseRun n s1
      (j :: r.1, r.2)

/-- Job states of the status interface (src/server.js lines 387-395). -/
inductive JobState
  | queued
  | processing
  | completed
  | failed
  | delayed
  | paused
deriving DecidableEq

/-- What the result endpoint can observe for one request: the state of the
job in the queue and whether result.json exists in the job directory. -/
structure ResultCtx where
  jobState : JobState
  resultFileExists : Bool
deriving DecidableEq

/-- The result endpoint `GET /jobs/:jobId/result.json` (src/server.js lines
439-479): 200 with the manifest when result.json exists on disk, else 404
RESULT_NOT_FOUND.  The handler never consults the job state. -/
def resultEndpointHttpStatus (ctx : ResultCtx) : ℕ :=
  if ctx.resultFileExists then 200 else 404

/-- A 1x1 PNG whose only pixel is fully transparent (alpha 0). -/
def pngEmpty : PngImage := ⟨1, 1, fun _ _ => 0⟩

/-- A 1x1 PNG whose only pixel is fully opaque (alpha 255). -/
def pngFull : PngImage := ⟨1, 1, fun _ _ => 255⟩

theorem nonDecreasingB_iff : ∀ l : List ℕ, nonDecreasingB l = true ↔ List.Chain' (· ≤ ·) l
  | [] => by simp [nonDecreasingB]
  | [_] => by simp [nonDecreasingB]
  | a :: b :: rest => by
    rw [List.chain'_cons]
    simp [nonDecreasingB, ← nonDecreasingB_iff (b :: rest)]

/-- Claim C1 (code bug in the worker): on the success path the worker
reports the progress sequence 5, 10, 20, 25, 95, 90, 95, 98, 100 — the
finalizing checkpoint (95) fires inside `parseWithProgressTracking` before
the worker reports 90 — so the progress values of a successful attempt are
not monotonically non-decreasing, contradicting the spec guarantee. -/
theorem progressTrace_success_not_monotone :
    progressTrace .success = [5, 10, 20, 25, 95, 90, 95, 98, 100] ∧
    ¬ List.Chain' (· ≤ ·) (progressTrace .success) := by
  constructor
  · decide
  · rw [← nonDecreasingB_iff]
    decide

/-- Claim C2: after a cold start of either the worker or the API server,
`initializeQueue` leaves the queue not paused and (for the server, which
also deletes the two persisted Bull pause keys) no persisted pause flag
remains, whatever pause state was persisted before the restart. -/
theorem initializeQueue_clears_pause (s : QueueControlState) :
    (workerInitializeQueue (coldStart s)).localPaused = false ∧
    (workerInitializeQueue (coldStart s)).pausedKey = false ∧
    (workerInitializeQueue (coldStart s)).metaPausedKey = false ∧
    (serverInitializeQueue (coldStart s)).localPaused = false ∧
    (serverInitializeQueue (coldStart s)).pausedKey = false ∧
    (serverInitializeQueue (coldStart s)).metaPausedKey = false :=
  ⟨rfl, rfl, rfl, rfl, rfl, rfl⟩

theorem leaseRun_returns_front :
    ∀ (n : ℕ) (s : BrokerState), ∃ t, (leaseRun n s).1 ++ t = s.waiting := by
  intro n
  induction n with
  | zero => intro s; exact ⟨s.waiting, rfl⟩
  | succ n ih =>
    intro s
    obtain ⟨w, a, p⟩ := s
    cases p with
    | true =>
      have h : leaseRun (n + 1) ⟨w, a, true⟩ = leaseRun n ⟨w, a, true⟩ := by
        simp [leaseRun, lease]
      rw [h]
      exact ih ⟨w, a, true⟩
    | false =>
      cases w with
      | nil =>
        have h : leaseRun (n + 1) (⟨[], a, false⟩ : BrokerState)
            = leaseRun n ⟨[], a, false⟩ := by
          simp [leaseRun, lease]
        rw [h]
        exact ih ⟨[], a, false⟩
      | cons j rest =>
        have h : leaseRun (n + 1) (⟨j :: rest, a, false⟩ : BrokerState)
            = (j :: (leaseRun n ⟨rest, j :: a, false⟩).1,
               (leaseRun n ⟨rest, j :: a, false⟩).2) := by
          simp [leaseRun, lease]
        rw [h]
        obtain ⟨t, ht⟩ := ih ⟨rest, j :: a, false⟩
        exact ⟨t, by simp [ht]⟩

/-- Claim C3: under the spec-modelled atomic lease operation, any sequence
of lease calls — and hence any concurrent schedule of atomic lease calls by
worker slots — returns pairwise-distinct job ids whenever the waiting list
holds no duplicate ids: no two calls ever return the same job. -/
theorem lease_exclusive (n : ℕ) (s : BrokerState) (h : s.waiting.Nodup) :
    (leaseRun n s).1.Nodup := by
  obtain ⟨t, ht⟩ := leaseRun_returns_front n s
  rw [← ht] at h
  exact h.of_append_left

/-- Witness for C3 at a concrete broker state with two distinct waiting
jobs and two lease calls. -/
theorem lease_exclusive_witness :
    (["job-a", "job-b"] : List String).Nodup ∧
    (leaseRun 2 ⟨["job-a", "job-b"], [], false⟩).1.Nodup :=
  ⟨by decide, lease_exclusive 2 ⟨["job-a", "job-b"], [], false⟩ (by decide)⟩

/-- Claim C8 (counterexample): a result request for a job that is still
processing, at a moment when result.json already exists in the job
directory, is answered 200 with the manifest even though the job state is
not completed — the handler never checks the state. -/
theorem resultEndpoint_nonCompleted_served :
    resultEndpointHttpStatus ⟨.processing, true⟩ = 200 ∧
    JobState.processing ≠ JobState.completed :=
  ⟨rfl, by decide⟩

/-- Claim C8 (amended): the result endpoint returns the manifest exactly
when result.json exists on disk, regardless of the job state; and the
worker persists result.json strictly before the attempt completes, so the
state in which a processing job already has a manifest on disk is reached
on every successful attempt. -/
theorem resultEndpoint_serves_iff_file (ctx : ResultCtx) :
    (resultEndpointHttpStatus ctx = 200 ↔ ctx.resultFileExists = true) ∧
    WorkerEvent.writeResultJson ∈
      (workerProcessEvents .success).takeWhile (fun e => e ≠ .ackCompleted) := by
  constructor
  · unfold resultEndpointHttpStatus
    cases h : ctx.resultFileExists <;> simp [h]
  · decide

theorem calculateConfidence_closed (lc mc : ℕ) :
    calculateConfidence lc mc
      = min 0.98 (0.3 + min 0.4 ((lc : ℚ) * 0.1) + min 0.3 ((mc : ℚ) * 0.05)) := by
  unfold calculateConfidence
  rcases Nat.eq_zero_or_pos lc with h1 | h1 <;>
    rcases Nat.eq_zero_or_pos mc with h2 | h2 <;>
      simp [h1, h2, Nat.pos_iff_ne_zero] <;> norm_num

/-- Claim C4: for all layer and map counts the overall confidence equals
min(0.98, 0.3 + min(0.4, layerCount*0.1) + min(0.3, mapCount*0.05)), is
monotonically non-decreasing in each argument, and never exceeds 0.98. -/
theorem calculateConfidence_spec (lc mc lc2 mc2 : ℕ)
    (h1 : lc ≤ lc2) (h2 : mc ≤ mc2) :
    calculateConfidence lc mc
      = min 0.98 (0.3 + min 0.4 ((lc : ℚ) * 0.1) + min 0.3 ((mc : ℚ) * 0.05)) ∧
    calculateConfidence lc mc ≤ calculateConfidence lc2 mc2 ∧
    calculateConfidence lc mc ≤ 0.98 := by
  refine ⟨calculateConfidence_closed lc mc, ?_, ?_⟩
  · rw [calculateConfidence_closed, calculateConfidence_closed]
    gcongr
  · rw [calculateConfidence_closed]
    exact min_le_left _ _

/-- Witness for C4 at layer counts 1 ≤ 3 and map counts 2 ≤ 4. -/
theorem calculateConfidence_spec_witness :
    (1 ≤ 3 ∧ 2 ≤ 4) ∧
    (calculateConfidence 1 2
        = min 0.98 (0.3 + min 0.4 (((1 : ℕ) : ℚ) * 0.1)
            + min 0.3 (((2 : ℕ) : ℚ) * 0.05)) ∧
      calculateConfidence 1 2 ≤ calculateConfidence 3 4 ∧
      calculateConfidence 1 2 ≤ 0.98) :=
  ⟨⟨by norm_num, by norm_num⟩,
   calculateConfidence_spec 1 2 3 4 (by norm_num) (by norm_num)⟩

theorem foldl_fixed {α β : Type} (f : β → α → β) :
    ∀ (l : List α) (b : β), (∀ a ∈ l, ∀ b2, f b2 a = b2) → l.foldl f b = b := by
  intro l
  induction l with
  | nil => intro b _; rfl
  | cons a rest ih =>
    intro b h
    rw [List.foldl_cons, h a (by simp)]
    exact ih b fun x hx b2 => h x (by simp [hx]) b2

theorem mem_pixelCoords (png : PngImage) (p : ℕ × ℕ) (h : p ∈ pixelCoords png) :
    p.1 < png.width ∧ p.2 < png.height := by
  unfold pixelCoords at h
  simp only [List.mem_flatMap, List.mem_map, List.mem_range] at h
  obtain ⟨y, hy, x, hx, he⟩ := h
  rw [← he]
  exact ⟨hx, hy⟩

theorem extractBounds_allLow (dpi : ℚ) (png : PngImage)
    (h : ∀ x, x < png.width → ∀ y, y < png.height → png.alpha x y ≤ 50) :
    extractBoundsFromMask dpi png = ⟨0, 0, 0, 0⟩ := by
  have hf : (pixelCoords png).foldl (scanPixel png)
      ⟨false, png.width, png.height, 0, 0⟩ = ⟨false, png.width, png.height, 0, 0⟩ := by
    refine foldl_fixed _ _ _ ?_
    intro p hp b2
    obtain ⟨h1, h2⟩ := mem_pixelCoords png p hp
    unfold scanPixel
    rw [if_neg]
    exact Nat.not_lt.mpr (h p.1 h1 p.2 h2)
  unfold extractBoundsFromMask
  simp [hf]

theorem extractBounds_pngEmpty : extractBoundsFromMask 600 pngEmpty = ⟨0, 0, 0, 0⟩ :=
  extractBounds_allLow 600 pngEmpty fun _ _ _ _ => Nat.zero_le 50

theorem extractBounds_pngFull : extractBoundsFromMask 600 pngFull = ⟨0, 0, 0, 0⟩ := by
  unfold extractBoundsFromMask pixelCoords pngFull
  norm_num [List.range_succ, scanPixel, round2]

theorem fallbackLayersFrom_confidence (maskOk : ℕ → Bool) :
    ∀ (effects : List FilenameEffect) (i : ℕ) (l : Layer),
      l ∈ fallbackLayersFrom maskOk i effects → l.confidence = 0.5 := by
  intro effects
  induction effects with
  | nil => intro i l h; simp [fallbackLayersFrom] at h
  | cons e rest ih =>
    intro i l h
    by_cases hok : maskOk i
    · rw [fallbackLayersFrom, if_pos hok] at h
      rcases List.mem_cons.mp h with h | h
      · rw [h]; rfl
      · exact ih _ _ h
    · rw [fallbackLayersFrom, if_neg hok] at h
      exact ih _ _ h

theorem ocgLayerFromName_confidence (dpi : ℚ) (render : ℕ → RenderOutcome)
    (maskRead : ℕ → Except String PngImage) (i : ℕ) (name : String) (l : Layer)
    (h : ocgLayerFromName dpi render maskRead i name = some l) :
    l.confidence = 0.95 ∨ l.confidence = 0.7 := by
  unfold ocgLayerFromName at h
  cases hd : detectEffectLayer name <;> rw [hd] at h
  · exact absurd h (by simp)
  · cases hr : render i <;> rw [hr] at h <;> simp only [renderConfidence] at h
    · rw [Option.some.injEq] at h
      rw [← h]
      left
      norm_num [jsOr]
    · rw [Option.some.injEq] at h
      rw [← h]
      right
      norm_num [jsOr]
    · exact absurd h (by simp)

/-- Claim C5: every fallback (filename-inferred) layer has confidence
strictly below every layer built from an actually rendered mask, whether
the primary isolated render (0.95) or the full-page substitute (0.7) was
used: fallback layers carry 0.5. -/
theorem fallback_confidence_below_rendered
    (maskOk : ℕ → Bool) (filename : String) (l : Layer)
    (hl : l ∈ fallbackLayerExtraction maskOk filename)
    (dpi : ℚ) (render : ℕ → RenderOutcome)
    (maskRead : ℕ → Except String PngImage) (i : ℕ) (name : String) (l2 : Layer)
    (hl2 : ocgLayerFromName dpi render maskRead i name = some l2) :
    l.confidence < l2.confidence := by
  have h5 : l.confidence = 0.5 :=
    fallbackLayersFrom_confidence maskOk _ 0 l hl
  rcases ocgLayerFromName_confidence dpi render maskRead i name l2 hl2 with h | h <;>
    rw [h5, h] <;> norm_num

/-- Witness for C5: the fallback layer inferred from filename "foil"
(confidence 0.5) against a spotUV layer built from an advanced-rendered
mask (confidence 0.95). -/
theorem fallback_confidence_below_rendered_witness :
    fallbackLayerOf 0 ⟨"foil", "foil", "default"⟩
        ∈ fallbackLayerExtraction (fun _ => true) "foil" ∧
    ocgLayerFromName 600 (fun _ => RenderOutcome.advanced)
        (fun _ => Except.ok pngEmpty) 0 "uv"
      = some ⟨"layer_" ++ toString 0, "uv", "effect", "spotUV", "gloss",
              jsOrStr "front" "front",
              sanitizeName "uv" ++ "_" ++ toString 0 ++ ".png",
              extractBoundsFromMaskResult 600 (Except.ok pngEmpty),
              jsOr 0.95 0.8⟩ ∧
    (fallbackLayerOf 0 ⟨"foil", "foil", "default"⟩).confidence
      < (⟨"layer_" ++ toString 0, "uv", "effect", "spotUV", "gloss",
          jsOrStr "front" "front",
          sanitizeName "uv" ++ "_" ++ toString 0 ++ ".png",
          extractBoundsFromMaskResult 600 (Except.ok pngEmpty),
          jsOr 0.95 0.8⟩ : Layer).confidence := by
  have hm : fallbackLayerOf 0 ⟨"foil", "foil", "default"⟩
      ∈ fallbackLayerExtraction (fun _ => true) "foil" := by
    unfold fallbackLayerExtraction
    rw [show analyzeFilenameForEffects (strToLower "foil")
        = [⟨"foil", "foil", "default"⟩] from by decide]
    simp [fallbackLayersFrom]
  have he : ocgLayerFromName 600 (fun _ => RenderOutcome.advanced)
      (fun _ => Except.ok pngEmpty) 0 "uv"
    = some ⟨"layer_" ++ toString 0, "uv", "effect", "spotUV", "gloss",
            jsOrStr "front" "front",
            sanitizeName "uv" ++ "_" ++ toString 0 ++ ".png",
            extractBoundsFromMaskResult 600 (Except.ok pngEmpty),
            jsOr 0.95 0.8⟩ := by
    unfold ocgLayerFromName
    rw [show detectEffectLayer "uv" = some ⟨"spotUV", "gloss", "front"⟩ from by decide]
    rfl
  exact ⟨hm, he,
    fallback_confidence_below_rendered (fun _ => true) "foil" _ hm
      600 (fun _ => RenderOutcome.advanced) (fun _ => Except.ok pngEmpty)
      0 "uv" _ he⟩

/-- Claim C6 (amended): fallback classification runs exactly when the
OCProperties lookup finds nothing (or the enumeration block throws) or OCG
mode is disabled; when OCG is available and enabled the declared names are
classified per-layer, and in particular an enumeration that yields no layer
names produces zero layers without consulting fallback classification. -/
theorem extractOCGLayers_fallback_condition
    (ocgAvailable enableOCG : Bool) (layerNames : List String)
    (render : ℕ → RenderOutcome) (maskRead : ℕ → Except String PngImage)
    (maskOk : ℕ → Bool) (filename : String) (dpi : ℚ) :
    ((ocgAvailable = false ∨ enableOCG = false) →
      extractOCGLayers ocgAvailable enableOCG layerNames render maskRead
          maskOk filename dpi
        = fallbackLayerExtraction maskOk filename) ∧
    (ocgAvailable = true → enableOCG = true → layerNames = [] →
      extractOCGLayers ocgAvailable enableOCG layerNames render maskRead
          maskOk filename dpi
        = []) := by
  constructor
  · intro h
    rcases h with h | h <;> subst h <;> simp [extractOCGLayers]
  · intro h1 h2 h3
    subst h1; subst h2; subst h3
    simp [extractOCGLayers, ocgLayersFrom]

/-- Witness for C6 at two concrete configurations: OCG unavailable (falls
back) and OCG available with an empty enumeration (zero layers). -/
theorem extractOCGLayers_fallback_condition_witness :
    extractOCGLayers false true ["Gold Foil"] (fun _ => RenderOutcome.advanced)
        (fun _ => Except.ok pngEmpty) (fun _ => true) "card.pdf" 600
      = fallbackLayerExtraction (fun _ => true) "card.pdf" ∧
    extractOCGLayers true true [] (fun _ => RenderOutcome.advanced)
        (fun _ => Except.ok pngEmpty) (fun _ => true) "card.pdf" 600
      = [] :=
  ⟨(extractOCGLayers_fallback_condition false true ["Gold Foil"]
      (fun _ => RenderOutcome.advanced) (fun _ => Except.ok pngEmpty)
      (fun _ => true) "card.pdf" 600).1 (Or.inl rfl),
   (extractOCGLayers_fallback_condition true true []
      (fun _ => RenderOutcome.advanced) (fun _ => Except.ok pngEmpty)
      (fun _ => true) "card.pdf" 600).2 rfl rfl rfl⟩

theorem fallback_goldFoilCard :
    fallbackLayerExtraction (fun _ => true) "gold-foil-card.pdf"
      = [fallbackLayerOf 0 ⟨"foil", "foil", "default"⟩] := by
  unfold fallbackLayerExtraction
  rw [show analyzeFilenameForEffects (strToLower "gold-foil-card.pdf")
      = [⟨"foil", "foil", "default"⟩] from by decide]
  simp [fallbackLayersFrom]

/-- Claim C6 (counterexample): with OCG available and enabled but an empty
layer-name enumeration, the analyzer returns zero layers and does not run
fallback classification, although fallback would produce a foil layer for
this filename — refuting "enumeration yields no layer names implies
fallback classification runs". -/
theorem extractOCGLayers_emptyNames_no_fallback :
    extractOCGLayers true true [] (fun _ => RenderOutcome.advanced)
        (fun _ => Except.ok pngEmpty) (fun _ => true) "gold-foil-card.pdf" 600
      = [] ∧
    fallbackLayerExtraction (fun _ => true) "gold-foil-card.pdf" ≠ [] := by
  constructor
  · rfl
  · rw [fallback_goldFoilCard]
    simp

/-- Claim C7 (counterexample): for filename gold-foil-card.pdf the fallback
classification yields exactly one entry, but its subtype is "default", not
"gold" — the keyword "foil" is tested before "gold" and the subtype table
has no entry for "foil". -/
theorem goldFoil_subtype_not_gold :
    (fallbackLayerExtraction (fun _ => true) "gold-foil-card.pdf").map
        (fun l => (l.effectType, l.effectSubtype)) = [("foil", "default")] ∧
    ("default" : String) ≠ "gold" := by
  constructor
  · rw [fallback_goldFoilCard]
    rfl
  · decide

/-- Claim C7 (amended): for an input whose filename contains
gold-foil-card.pdf and which declares no layers, fallback classification
yields exactly one foil entry with subtype "default", confidence 0.5 and
the synthetic bounding box x=15, y=35, width=25, height=8. -/
theorem goldFoil_fallback_entry :
    fallbackLayerExtraction (fun _ => true) "gold-foil-card.pdf"
      = [fallbackLayerOf 0 ⟨"foil", "foil", "default"⟩] ∧
    (fallbackLayerOf 0 ⟨"foil", "foil", "default"⟩).effectType = "foil" ∧
    (fallbackLayerOf 0 ⟨"foil", "foil", "default"⟩).effectSubtype = "default" ∧
    (fallbackLayerOf 0 ⟨"foil", "foil", "default"⟩).confidence = 0.5 ∧
    (fallbackLayerOf 0 ⟨"foil", "foil", "default"⟩).bounds = ⟨15, 35, 25, 8⟩ :=
  ⟨fallback_goldFoilCard, rfl, rfl, rfl,
   by norm_num [fallbackLayerOf, generateDefaultBounds, Bounds.mk.injEq]⟩

/-- Claim C9 (amended): a classified effect layer whose rendered mask has
no pixel above the alpha cutoff 50 gets the zero-area bounding box
x=0, y=0, width=0, height=0; its confidence is unchanged — it equals the
confidence of the same layer built over any other mask content, because
no explicit low-confidence flag exists and confidence depends only on the
render method. -/
theorem ocgLayer_emptyMask_zeroBounds
    (dpi : ℚ) (render : ℕ → RenderOutcome)
    (maskRead maskRead2 : ℕ → Except String PngImage) (i : ℕ) (name : String)
    (l l2 : Layer) (png : PngImage)
    (hread : maskRead i = Except.ok png)
    (hlow : ∀ x, x < png.width → ∀ y, y < png.height → png.alpha x y ≤ 50)
    (h1 : ocgLayerFromName dpi render maskRead i name = some l)
    (h2 : ocgLayerFromName dpi render maskRead2 i name = some l2) :
    l.bounds = ⟨0, 0, 0, 0⟩ ∧ l.confidence = l2.confidence := by
  unfold ocgLayerFromName at h1 h2
  cases hd : detectEffectLayer name <;> rw [hd] at h1 h2
  · exact absurd h1 (by simp)
  · cases hr : render i <;> rw [hr] at h1 h2 <;>
      simp only [renderConfidence] at h1 h2
    · rw [Option.some.injEq] at h1 h2
      refine ⟨?_, ?_⟩
      · rw [← h1]
        show extractBoundsFromMaskResult dpi (maskRead i) = _
        rw [hread]
        show extractBoundsFromMask dpi png = _
        exact extractBounds_allLow dpi png hlow
      · rw [← h1, ← h2]
    · rw [Option.some.injEq] at h1 h2
      refine ⟨?_, ?_⟩
      · rw [← h1]
        show extractBoundsFromMaskResult dpi (maskRead i) = _
        rw [hread]
        show extractBoundsFromMask dpi png = _
        exact extractBounds_allLow dpi png hlow
      · rw [← h1, ← h2]
    · exact absurd h1 (by simp)

/-- Witness for C9: a spotUV layer over the all-transparent 1x1 mask gets
the zero box and the same confidence as the layer over the fully opaque
mask. -/
theorem ocgLayer_emptyMask_zeroBounds_witness :
    (⟨"layer_" ++ toString 0, "uv", "effect", "spotUV", "gloss",
      jsOrStr "front" "front", sanitizeName "uv" ++ "_" ++ toString 0 ++ ".png",
      extractBoundsFromMaskResult 600 (Except.ok pngEmpty),
      jsOr 0.95 0.8⟩ : Layer).bounds = ⟨0, 0, 0, 0⟩ ∧
    (⟨"layer_" ++ toString 0, "uv", "effect", "spotUV", "gloss",
      jsOrStr "front" "front", sanitizeName "uv" ++ "_" ++ toString 0 ++ ".png",
      extractBoundsFromMaskResult 600 (Except.ok pngEmpty),
      jsOr 0.95 0.8⟩ : Layer).confidence
    = (⟨"layer_" ++ toString 0, "uv", "effect", "spotUV", "gloss",
        jsOrStr "front" "front", sanitizeName "uv" ++ "_" ++ toString 0 ++ ".png",
        extractBoundsFromMaskResult 600 (Except.ok pngFull),
        jsOr 0.95 0.8⟩ : Layer).confidence := by
  have h1 : ocgLayerFromName 600 (fun _ => RenderOutcome.advanced)
      (fun _ => Except.ok pngEmpty) 0 "uv"
    = some ⟨"layer_" ++ toString 0, "uv", "effect", "spotUV", "gloss",
            jsOrStr "front" "front",
            sanitizeName "uv" ++ "_" ++ toString 0 ++ ".png",
            extractBoundsFromMaskResult 600 (Except.ok pngEmpty),
            jsOr 0.95 0.8⟩ := by
    unfold ocgLayerFromName
    rw [show detectEffectLayer "uv" = some ⟨"spotUV", "gloss", "front"⟩ from by decide]
    rfl
  have h2 : ocgLayerFromName 600 (fun _ => RenderOutcome.advanced)
      (fun _ => Except.ok pngFull) 0 "uv"
    = some ⟨"layer_" ++ toString 0, "uv", "effect", "spotUV", "gloss",
            jsOrStr "front" "front",
            sanitizeName "uv" ++ "_" ++ toString 0 ++ ".png",
            extractBoundsFromMaskResult 600 (Except.ok pngFull),
            jsOr 0.95 0.8⟩ := by
    unfold ocgLayerFromName
    rw [show detectEffectLayer "uv" = some ⟨"spotUV", "gloss", "front"⟩ from by decide]
    rfl
  exact ocgLayer_emptyMask_zeroBounds 600 (fun _ => RenderOutcome.advanced)
    (fun _ => Except.ok pngEmpty) (fun _ => Except.ok pngFull) 0 "uv" _ _
    pngEmpty rfl (fun _ _ _ _ => Nat.zero_le 50) h1 h2

/-- Claim C9 (counterexample): the layer over the all-transparent mask has
the zero-area box but carries no low-confidence marking: its confidence is
0.95, exactly the confidence of the layer over the fully opaque mask, not
strictly lower. -/
theorem ocgLayer_emptyMask_confidence_not_lowered :
    extractBoundsFromMaskResult 600 (Except.ok pngEmpty) = ⟨0, 0, 0, 0⟩ ∧
    ocgLayerFromName 600 (fun _ => RenderOutcome.advanced)
        (fun _ => Except.ok pngEmpty) 0 "uv"
      = some ⟨"layer_" ++ toString 0, "uv", "effect", "spotUV", "gloss",
              jsOrStr "front" "front",
              sanitizeName "uv" ++ "_" ++ toString 0 ++ ".png",
              extractBoundsFromMaskResult 600 (Except.ok pngEmpty),
              jsOr 0.95 0.8⟩ ∧
    jsOr 0.95 0.8 = 0.95 ∧
    ¬ (jsOr 0.95 0.8 < jsOr 0.95 0.8) := by
  refine ⟨?_, ?_, ?_, lt_irrefl _⟩
  · show extractBoundsFromMask 600 pngEmpty = _
    exact extractBounds_pngEmpty
  · unfold ocgLayerFromName
    rw [show detectEffectLayer "uv" = some ⟨"spotUV", "gloss", "front"⟩ from by decide]
    rfl
  · norm_num [jsOr]

/-- Claim C10: bounds extraction is total; on any read or decode error it
returns the zero-area box, observationally indistinguishable from an
all-transparent mask. -/
theorem extractBounds_error_zero (dpi : ℚ) (msg : String) (png : PngImage)
    (hlow : ∀ x, x < png.width → ∀ y, y < png.height → png.alpha x y ≤ 50) :
    extractBoundsFromMaskResult dpi (Except.error msg) = ⟨0, 0, 0, 0⟩ ∧
    extractBoundsFromMaskResult dpi (Except.ok png)
      = extractBoundsFromMaskResult dpi (Except.error msg) := by
  refine ⟨rfl, ?_⟩
  show extractBoundsFromMask dpi png = _
  rw [extractBounds_allLow dpi png hlow]
  rfl

/-- Witness for C10: a failed read and the all-transparent 1x1 mask give
the same zero-area box. -/
theorem extractBounds_error_zero_witness :
    extractBoundsFromMaskResult 600 (Except.error "ENOENT") = ⟨0, 0, 0, 0⟩ ∧
    extractBoundsFromMaskResult 600 (Except.ok pngEmpty)
      = extractBoundsFromMaskResult 600 (Except.error "ENOENT") :=
  extractBounds_error_zero 600 "ENOENT" pngEmpty fun _ _ _ _ => Nat.zero_le 50

/-- Witness for C2 at the fully paused persisted state. -/
theorem initializeQueue_clears_pause_witness :
    (workerInitializeQueue (coldStart ⟨true, true, true⟩)).localPaused = false ∧
    (workerInitializeQueue (coldStart ⟨true, true, true⟩)).pausedKey = false ∧
    (workerInitializeQueue (coldStart ⟨true, true, true⟩)).metaPausedKey = false ∧
    (serverInitializeQueue (coldStart ⟨true, true, true⟩)).localPaused = false ∧
    (serverInitializeQueue (coldStart ⟨true, true, true⟩)).pausedKey = false ∧
    (serverInitializeQueue (coldStart ⟨true, true, true⟩)).metaPausedKey = false :=
  initializeQueue_clears_pause ⟨true, true, true⟩

/-- Witness for C8 at a processing job whose result.json already exists. -/
theorem resultEndpoint_serves_iff_file_witness :
    (resultEndpointHttpStatus ⟨JobState.processing, true⟩ = 200 ↔
      (⟨JobState.processing, true⟩ : ResultCtx).resultFileExists = true) ∧
    WorkerEvent.writeResultJson ∈
      (workerProcessEvents .success).takeWhile (fun e => e ≠ .ackCompleted) :=
  resultEndpoint_serves_iff_file ⟨JobState.processing, true⟩
